import Mathlib

/-!
Verification of the serial-to-orientation pipeline of the sphere_mapping
repository.  The Python modules `src/utils/serial_parser.py`,
`src/utils/measure.py`, `src/utils/quaternion.py` and `src/sphere_app.py`
are embedded shallowly: strings are lists of characters, Python floats are
idealised as exact rationals, Python ints as integers, and fallible Python
calls return `Except PyError`.

The two regular expressions of `serial_parser.py`,

  meas_pattern:
    Measurement: six groups of the shape minus-sign? digits+ (dot digits+)?
  cal_pattern:
    Calibration: six groups of the shape minus-sign? digits+, one of digits+

are embedded as deterministic greedy matchers.  Greedy matching is
deterministic for these patterns: shortening a digit run can never turn a
failure into a success, because the character after the shortened run would
be a digit, which none of the following pattern elements (a dot, a comma, or
the always-satisfiable optional trailing CR/LF) requires.  `re.search` is
embedded as trying the pattern at every start position, leftmost first.
-/

namespace SphereMapping

/-! ### Character-level matchers for the two regex patterns -/

/-- The regex atom for one or more digits: split off the longest (greedy)
leading run of decimal digits. -/
def takeDigits : List Char → List Char × List Char
  | [] => ([], [])
  | c :: r =>
    if c.isDigit then
      let p := takeDigits r
      (c :: p.1, p.2)
    else ([], c :: r)

/-- Match the characters of a literal piece of the pattern at the start of
the input, returning the rest of the input on success. -/
def matchLit : List Char → List Char → Option (List Char)
  | [], s => some s
  | _ :: _, [] => none
  | l :: ls, c :: s => if c = l then matchLit ls s else none

/-- The optional minus sign at the head of a numeric group. -/
def splitSign : List Char → Bool × List Char
  | [] => (false, [])
  | c :: r => if c = '-' then (true, r) else (false, c :: r)

/-- The optional fractional part of a measurement group: consume a dot
followed by a nonempty digit run if present, else consume nothing. -/
def splitFrac : List Char → List Char × List Char
  | [] => ([], [])
  | c :: r =>
    if c = '.' then
      let fp := takeDigits r
      if fp.1 = [] then ([], c :: r) else ('.' :: fp.1, fp.2)
    else ([], c :: r)

/-- Matcher for one capture group of meas_pattern (an optionally signed
decimal number with optional fractional part) at the start of the input,
returning the captured characters and the rest. -/
def matchNumber (s : List Char) : Option (List Char × List Char) :=
  let sg := splitSign s
  let ip := takeDigits sg.2
  if ip.1 = [] then none
  else
    let fr := splitFrac ip.2
    some ((if sg.1 then ['-'] else []) ++ ip.1 ++ fr.1, fr.2)

/-- Matcher for one signed-integer capture group of cal_pattern. -/
def matchIntTok (s : List Char) : Option (List Char × List Char) :=
  let sg := splitSign s
  let ip := takeDigits sg.2
  if ip.1 = [] then none
  else some ((if sg.1 then ['-'] else []) ++ ip.1, ip.2)

/-- Matcher for the final non-negative-integer capture group of cal_pattern. -/
def matchUIntTok (s : List Char) : Option (List Char × List Char) :=
  let ip := takeDigits s
  if ip.1 = [] then none else some (ip.1, ip.2)

/-- The literal head of meas_pattern. -/
def measLit : List Char := ['M', 'e', 'a', 's', 'u', 'r', 'e', 'm', 'e', 'n', 't', ':', ' ']

/-- The literal head of cal_pattern. -/
def calLit : List Char := ['C', 'a', 'l', 'i', 'b', 'r', 'a', 't', 'i', 'o', 'n', ':', ' ']

/-- The literal separator between capture groups in both patterns. -/
def sep : List Char := [',', ' ']

/-- The six capture groups of a meas_pattern match. -/
structure MeasGroups where
  g1 : List Char
  g2 : List Char
  g3 : List Char
  g4 : List Char
  g5 : List Char
  g6 : List Char
  deriving DecidableEq

/-- The seven capture groups of a cal_pattern match. -/
structure CalGroups where
  g1 : List Char
  g2 : List Char
  g3 : List Char
  g4 : List Char
  g5 : List Char
  g6 : List Char
  g7 : List Char
  deriving DecidableEq

/-- Try meas_pattern at the start of the input.  The trailing optional CR and
LF of the pattern are always satisfiable and capture nothing, so they impose
no constraint and are omitted. -/
def measMatchAt (s : List Char) : Option MeasGroups :=
  (matchLit measLit s).bind fun s0 =>
  (matchNumber s0).bind fun p1 =>
  (matchLit sep p1.2).bind fun s1 =>
  (matchNumber s1).bind fun p2 =>
  (matchLit sep p2.2).bind fun s2 =>
  (matchNumber s2).bind fun p3 =>
  (matchLit sep p3.2).bind fun s3 =>
  (matchNumber s3).bind fun p4 =>
  (matchLit sep p4.2).bind fun s4 =>
  (matchNumber s4).bind fun p5 =>
  (matchLit sep p5.2).bind fun s5 =>
  (matchNumber s5).bind fun p6 =>
  some ⟨p1.1, p2.1, p3.1, p4.1, p5.1, p6.1⟩

/-- Try cal_pattern at the start of the input. -/
def calMatchAt (s : List Char) : Option CalGroups :=
  (matchLit calLit s).bind fun s0 =>
  (matchIntTok s0).bind fun p1 =>
  (matchLit sep p1.2).bind fun s1 =>
  (matchIntTok s1).bind fun p2 =>
  (matchLit sep p2.2).bind fun s2 =>
  (matchIntTok s2).bind fun p3 =>
  (matchLit sep p3.2).bind fun s3 =>
  (matchIntTok s3).bind fun p4 =>
  (matchLit sep p4.2).bind fun s4 =>
  (matchIntTok s4).bind fun p5 =>
  (matchLit sep p5.2).bind fun s5 =>
  (matchIntTok s5).bind fun p6 =>
  (matchLit sep p6.2).bind fun s6 =>
  (matchUIntTok s6).bind fun p7 =>
  some ⟨p1.1, p2.1, p3.1, p4.1, p5.1, p6.1, p7.1⟩

/-- meas_pattern.search: try the pattern at every start position, leftmost
position first. -/
def searchMeas : List Char → Option MeasGroups
  | [] => measMatchAt []
  | c :: r =>
    match measMatchAt (c :: r) with
    | some g => some g
    | none => searchMeas r

/-- cal_pattern.search: try the pattern at every start position, leftmost
position first. -/
def searchCal : List Char → Option CalGroups
  | [] => calMatchAt []
  | c :: r =>
    match calMatchAt (c :: r) with
    | some g => some g
    | none => searchCal r

/-! ### Numeric conversion (Python float() / int() on captured groups) -/

/-- Numeric value of a run of decimal digits. -/
def digitsToNat (ds : List Char) : Nat :=
  ds.foldl (fun a c => 10 * a + (c.toNat - 48)) 0

/-- Python float() on a string of the shape captured by a meas_pattern group,
idealised as an exact rational.  On a string of any other shape it raises
ValueError, modelled as `none`; such strings never reach it in this program,
because the capture groups produce exactly this shape. -/
def ratOfTok (s : List Char) : Option ℚ :=
  let sg := splitSign s
  let ip := takeDigits sg.2
  if ip.1 = [] then none
  else
    match ip.2 with
    | [] => some ((if sg.1 then -1 else 1) * (digitsToNat ip.1 : ℚ))
    | '.' :: r =>
      let fp := takeDigits r
      if fp.1 = [] then none
      else if fp.2 = [] then
        some ((if sg.1 then -1 else 1) *
          ((digitsToNat ip.1 : ℚ) + (digitsToNat fp.1 : ℚ) / (10 : ℚ) ^ fp.1.length))
      else none
    | _ => none

/-- Python int() on a string of the shape captured by a cal_pattern group;
`none` models ValueError on any other shape. -/
def intOfTok (s : List Char) : Option ℤ :=
  let sg := splitSign s
  let ip := takeDigits sg.2
  if ip.1 = [] then none
  else if ip.2 = [] then
    some ((if sg.1 then -1 else 1) * (digitsToNat ip.1 : ℤ))
  else none

/-- The Python exceptions this pipeline can raise. -/
inductive PyError
  | valueError
  | typeError
  deriving DecidableEq

/-- Python float() as a raising call. -/
def pyFloat (s : List Char) : Except PyError ℚ :=
  match ratOfTok s with
  | some v => .ok v
  | none => .error .valueError

/-- Python int() as a raising call. -/
def pyInt (s : List Char) : Except PyError ℤ :=
  match intOfTok s with
  | some v => .ok v
  | none => .error .valueError

/-! ### Data model (utils/measure.py) -/

/-- Measurement: magnetometer and accelerometer triples, floats idealised
as rationals. -/
structure Measurement where
  mag : ℚ × ℚ × ℚ
  acc : ℚ × ℚ × ℚ
  deriving DecidableEq

/-- Calibration: mode flag, center and scale triples, radius. -/
structure Calibration where
  is_constant : Bool
  center : ℤ × ℤ × ℤ
  scale : ℤ × ℤ × ℤ
  radius : ℤ
  deriving DecidableEq

/-- The three possible outcomes of parse_line: a Measurement, a Calibration,
or None for an unrecognized line. -/
inductive ParseResult
  | meas (m : Measurement)
  | cal (c : Calibration)
  | noMatch
  deriving DecidableEq

/-! ### parse_line (utils/serial_parser.py) -/

/-- The float conversions of the Measurement branch of parse_line, in source
order (mag triple then acc triple); the first ValueError aborts the rest. -/
def measDecode (g : MeasGroups) : Except PyError ParseResult :=
  match pyFloat g.g1 with
  | .error e => .error e
  | .ok v1 =>
    match pyFloat g.g2 with
    | .error e => .error e
    | .ok v2 =>
      match pyFloat g.g3 with
      | .error e => .error e
      | .ok v3 =>
        match pyFloat g.g4 with
        | .error e => .error e
        | .ok v4 =>
          match pyFloat g.g5 with
          | .error e => .error e
          | .ok v5 =>
            match pyFloat g.g6 with
            | .error e => .error e
            | .ok v6 => .ok (.meas ⟨(v1, v2, v3), (v4, v5, v6)⟩)

/-- The int conversions of the Calibration branch of parse_line, in source
order (center, scale, radius); a successful decode sets is_constant true. -/
def calDecode (g : CalGroups) : Except PyError ParseResult :=
  match pyInt g.g1 with
  | .error e => .error e
  | .ok v1 =>
    match pyInt g.g2 with
    | .error e => .error e
    | .ok v2 =>
      match pyInt g.g3 with
      | .error e => .error e
      | .ok v3 =>
        match pyInt g.g4 with
        | .error e => .error e
        | .ok v4 =>
          match pyInt g.g5 with
          | .error e => .error e
          | .ok v5 =>
            match pyInt g.g6 with
            | .error e => .error e
            | .ok v6 =>
              match pyInt g.g7 with
              | .error e => .error e
              | .ok v7 => .ok (.cal ⟨true, (v1, v2, v3), (v4, v5, v6), v7⟩)

/-- The cal_pattern half of parse_line: search, decode, and catch ValueError
(logged in the source) by returning None. -/
def calStep (line : String) : Except PyError ParseResult :=
  match searchCal line.data with
  | some g =>
    match calDecode g with
    | .ok r => .ok r
    | .error .valueError => .ok ParseResult.noMatch
    | .error e => .error e
  | none => .ok ParseResult.noMatch

/-- parse_line: search meas_pattern first; on a match decode the six floats,
catching ValueError (logged in the source) by falling through to the
cal_pattern half; without a match go to the cal_pattern half directly. -/
def parse_line (line : String) : Except PyError ParseResult :=
  match searchMeas line.data with
  | some g =>
    match measDecode g with
    | .ok r => .ok r
    | .error .valueError => calStep line
    | .error e => .error e
  | none => calStep line

/-- Whether the input starts with a digit. -/
def headDigit : List Char → Bool
  | [] => false
  | c :: _ => c.isDigit

/-- Whether the input starts with a dot. -/
def headDot : List Char → Bool
  | [] => false
  | c :: _ => c = '.'

/-- A position where a greedy number match necessarily ends: the input is
empty or starts with a character that can extend neither the digit run nor
the optional fractional part. -/
def numBoundary (s : List Char) : Bool := !headDigit s && !headDot s

instance exceptDecEq {e a : Type} [DecidableEq e] [DecidableEq a] :
    DecidableEq (Except e a) := fun x y =>
  match x, y with
  | .error e1, .error e2 =>
    if h : e1 = e2 then .isTrue (by rw [h]) else .isFalse (fun hc => by cases hc; exact h rfl)
  | .ok r1, .ok r2 =>
    if h : r1 = r2 then .isTrue (by rw [h]) else .isFalse (fun hc => by cases hc; exact h rfl)
  | .error _, .ok _ => .isFalse (fun hc => by cases hc)
  | .ok _, .error _ => .isFalse (fun hc => by cases hc)

/-! ### Well-formed grammar tokens, for quantifying over valid input lines -/

/-- A nonempty run of decimal digits. -/
def goodDigitsB (ds : List Char) : Bool :=
  !ds.isEmpty && ds.all Char.isDigit

/-- A well-formed decimal number of the Measurement grammar: optional minus
sign, nonempty integer digits, optional nonempty fraction digits. -/
structure NumTok where
  neg : Bool
  ip : List Char
  fp : Option (List Char)

/-- The characters of the number. -/
def NumTok.chars (t : NumTok) : List Char :=
  (if t.neg then ['-'] else []) ++ t.ip ++
    (match t.fp with | none => [] | some f => '.' :: f)

/-- Well-formedness of the number. -/
def NumTok.goodB (t : NumTok) : Bool :=
  goodDigitsB t.ip && t.fp.all goodDigitsB

/-- The exact rational value of the number (what Python float() returns on
its text, idealised). -/
def NumTok.val (t : NumTok) : ℚ :=
  match t.fp with
  | none => (if t.neg then -1 else 1) * (digitsToNat t.ip : ℚ)
  | some f =>
    (if t.neg then -1 else 1) *
      ((digitsToNat t.ip : ℚ) + (digitsToNat f : ℚ) / (10 : ℚ) ^ f.length)

/-- A well-formed signed integer of the Calibration grammar: optional minus
sign, nonempty digits. -/
structure IntTok where
  neg : Bool
  ds : List Char

/-- The characters of the integer. -/
def IntTok.chars (t : IntTok) : List Char :=
  (if t.neg then ['-'] else []) ++ t.ds

/-- Well-formedness of the integer. -/
def IntTok.goodB (t : IntTok) : Bool := goodDigitsB t.ds

/-- The value of the integer (what Python int() returns on its text). -/
def IntTok.val (t : IntTok) : ℤ :=
  (if t.neg then -1 else 1) * (digitsToNat t.ds : ℤ)

/-- The value of the final non-negative radius group. -/
def uintVal (ds : List Char) : ℤ := 1 * (digitsToNat ds : ℤ)

/-- The characters of a full Measurement line built from six well-formed
numbers: the literal head, then the numbers joined by the separator. -/
def measLineChars (t1 t2 t3 t4 t5 t6 : NumTok) : List Char :=
  measLit ++ (t1.chars ++ (sep ++ (t2.chars ++ (sep ++ (t3.chars ++
    (sep ++ (t4.chars ++ (sep ++ (t5.chars ++ (sep ++ t6.chars))))))))))

/-- The characters of a full Calibration line built from six well-formed
signed integers and a non-negative radius. -/
def calLineChars (u1 u2 u3 u4 u5 u6 : IntTok) (u7 : List Char) : List Char :=
  calLit ++ (u1.chars ++ (sep ++ (u2.chars ++ (sep ++ (u3.chars ++
    (sep ++ (u4.chars ++ (sep ++ (u5.chars ++ (sep ++ (u6.chars ++ (sep ++ u7))))))))))))

/-! ### External configuration store and reconciliation (sphere_app.py) -/

/-- The external configuration store keys read and written by sphere_app.py. -/
structure Store where
  calibration_type : String
  center_x : ℤ
  center_y : ℤ
  center_z : ℤ
  scale_x : ℤ
  scale_y : ℤ
  scale_z : ℤ
  radius : ℤ
  deriving DecidableEq

/-- The calibration-reconcile step at the top of on_timer (the step the spec
calls observe_desired): if the externally configured calibration_type is not
"constant", write the single command "SCAL\r" to the serial port and set
calibration_type back to "constant".  Returns the updated store and the list
of serial writes, in order. -/
def observe_desired (store : Store) : Store × List String :=
  if store.calibration_type = "constant" then (store, [])
  else ({ store with calibration_type := "constant" }, ["SCAL\r"])

/-- handle_calibration_data (the step the spec calls observe_device_report):
write the seven numeric fields of a received Calibration to the external
store and set calibration_type to "constant". -/
def handle_calibration_data (store : Store) (cal : Calibration) : Store :=
  { store with
    center_x := cal.center.1, center_y := cal.center.2.1, center_z := cal.center.2.2,
    scale_x := cal.scale.1, scale_y := cal.scale.2.1, scale_z := cal.scale.2.2,
    radius := cal.radius,
    calibration_type := "constant" }

/-! ### Orientation estimator (utils/quaternion.py) -/

/-- A sensor vector (floats idealised as rationals). -/
abbrev Vec3 := ℚ × ℚ × ℚ

/-- A quaternion (w, x, y, z). -/
abbrev Quat4 := ℚ × ℚ × ℚ × ℚ

/-- Squared euclidean norm of a sensor vector; np.linalg.norm(v) > 0 exactly
when normSq v > 0, so the source's norm test is embedded through normSq. -/
def normSq (v : Vec3) : ℚ := v.1 ^ 2 + v.2.1 ^ 2 + v.2.2 ^ 2

/-- Squared euclidean norm of a quaternion. -/
def qnormSq (q : Quat4) : ℚ :=
  q.1 ^ 2 + q.2.1 ^ 2 + q.2.2.1 ^ 2 + q.2.2.2 ^ 2

namespace Quaternion

/-- Quaternion.update of utils/quaternion.py.  If the accelerometer norm is
zero, warn and return leaving q unchanged; else if the magnetometer norm is
zero, warn and return leaving q unchanged; else store the FQA estimate of the
two vectors.  The FQA estimate lives in the third-party ahrs library, so it
enters as the parameter fqa; the source divides acc and mag by their
euclidean norms (irrational square roots) before handing them to FQA, and
that normalisation is folded into fqa.  The returned pair is the new q and
the warning surfaced, if any. -/
def update (fqa : Vec3 → Vec3 → Quat4) (q : Quat4) (m : Measurement) :
    Quat4 × Option String :=
  if 0 < normSq m.acc then
    if 0 < normSq m.mag then (fqa m.acc m.mag, none)
    else (q, some "Warning: Zero magnetometer reading")
  else (q, some "Warning: Zero accelerometer reading")

end Quaternion

/-- The Hamilton product of two quaternions. -/
def qmul (a b : Quat4) : Quat4 :=
  (a.1 * b.1 - a.2.1 * b.2.1 - a.2.2.1 * b.2.2.1 - a.2.2.2 * b.2.2.2,
   a.1 * b.2.1 + a.2.1 * b.1 + a.2.2.1 * b.2.2.2 - a.2.2.2 * b.2.2.1,
   a.1 * b.2.2.1 - a.2.1 * b.2.2.2 + a.2.2.1 * b.1 + a.2.2.2 * b.2.1,
   a.1 * b.2.2.2 + a.2.1 * b.2.2.1 - a.2.2.1 * b.2.1 + a.2.2.2 * b.1)

/-- Modelled from the spec: the factored-quaternion (FQA) estimate of the
third-party ahrs library, whose code is not in the repository.  Per the
design section on the Orientation Estimator and the glossary, the estimate is
a single absolute attitude quaternion factored into elementary rotations
about the coordinate axes (azimuth about Z, elevation about Y, roll about X);
each factor is built from the cosine and sine of a half angle, and those
cosine/sine pairs appear here as parameters because the library computes them
with irrational square roots. -/
def fqaFactored (ca sa ce se cr sr : ℚ) : Quat4 :=
  qmul (ca, 0, 0, sa) (qmul (ce, 0, se, 0) (cr, sr, 0, 0))

/-- np.clip(v, lo, hi) for scalars. -/
noncomputable def clip (v lo hi : ℝ) : ℝ := min (max v lo) hi

/-- np.arctan2(y, x): quadrant-aware arctangent. -/
noncomputable def atan2 (y x : ℝ) : ℝ :=
  if 0 < x then Real.arctan (y / x)
  else if x < 0 then
    (if 0 ≤ y then Real.arctan (y / x) + Real.pi else Real.arctan (y / x) - Real.pi)
  else if 0 < y then Real.pi / 2
  else if y < 0 then -(Real.pi / 2)
  else 0

/-- Quaternion.to_euler_zyx of utils/quaternion.py (radians branch): yaw,
pitch, roll from the quaternion components, with the asin argument of the
pitch clipped to the interval from -1 to 1. -/
noncomputable def to_euler_zyx (w x y z : ℝ) : ℝ × ℝ × ℝ :=
  (atan2 (2 * (w * z + x * y)) (1 - 2 * (y * y + z * z)),
   Real.arcsin (clip (2 * (w * y - z * x)) (-1) 1),
   atan2 (2 * (w * x + y * z)) (1 - 2 * (x * x + y * y)))

/-! ### Pipeline driver tick (sphere_app.py on_timer) -/

/-- The mutable state the tick handler closes over: the external store (via
the client), the orientation quaternion, and the wall-clock instant of the
previous accepted measurement. -/
structure TickState where
  store : Store
  q : Quat4
  last : ℚ

/-- The externally visible effects of one tick: serial command writes, whether
a pixel frame was rendered and published, and the streamed named scalars. -/
structure TickEffects where
  serialWrites : List String
  framePublished : Bool
  streams : List (String × ℝ)

/-- Number of parameters besides self in the definition of Quaternion.update
in utils/quaternion.py (one: measurement). -/
def update_param_count : Nat := 1

/-- Number of arguments besides the receiver passed at the on_timer call
site in sphere_app.py (two: result and dt). -/
def update_call_arg_count : Nat := 2

/-- One tick of on_timer in sphere_app.py: reconcile the desired calibration,
read one line (none models an empty read), parse it, and dispatch.  Python
checks the argument count of the call to Quaternion.update against the
parameter count of its definition and raises TypeError on a mismatch before
the method body runs; that check is made explicit in the Measurement branch.
The line argument carries the already stripped text. -/
noncomputable def on_timer (fqa : Vec3 → Vec3 → Quat4) (st : TickState)
    (now : ℚ) (line : Option String) : Except PyError (TickState × TickEffects) :=
  let od := observe_desired st.store
  let st1 : TickState := { st with store := od.1 }
  match line with
  | none => .ok (st1, ⟨od.2, false, []⟩)
  | some l =>
    if l = "" then .ok (st1, ⟨od.2, false, []⟩)
    else
      match parse_line l with
      | .error e => .error e
      | .ok .noMatch => .ok (st1, ⟨od.2, false, []⟩)
      | .ok (.cal c) =>
        .ok ({ st1 with store := handle_calibration_data st1.store c }, ⟨od.2, false, []⟩)
      | .ok (.meas m) =>
        let _dt := now - st1.last
        let st2 : TickState := { st1 with last := now }
        if update_call_arg_count = update_param_count then
          let uq := Quaternion.update fqa st2.q m
          let st3 : TickState := { st2 with q := uq.1 }
          let e := to_euler_zyx (st3.q.1 : ℝ) (st3.q.2.1 : ℝ) (st3.q.2.2.1 : ℝ) (st3.q.2.2.2 : ℝ)
          .ok (st3, ⟨od.2, true, [("yaw", e.1), ("pitch", e.2.1), ("roll", e.2.2)]⟩)
        else .error .typeError

/-! ### Lemmas on the character-level matchers -/

theorem takeDigits_app (ds rest : List Char) (h : ds.all Char.isDigit = true) :
    takeDigits (ds ++ rest) = (ds ++ (takeDigits rest).1, (takeDigits rest).2) := by
  induction ds with
  | nil => simp [takeDigits]
  | cons c cs ih =>
    simp only [List.all_cons, Bool.and_eq_true] at h
    simp [takeDigits, h.1, ih h.2]

theorem takeDigits_stop (s : List Char) (h : headDigit s = false) :
    takeDigits s = ([], s) := by
  cases s with
  | nil => rfl
  | cons c r =>
    simp only [headDigit] at h
    simp [takeDigits, h]

theorem takeDigits_digits (s : List Char) : (takeDigits s).1.all Char.isDigit = true := by
  induction s with
  | nil => rfl
  | cons c r ih =>
    by_cases h : c.isDigit
    · simp [takeDigits, h, ih]
    · simp [takeDigits, h]

theorem takeDigits_split (s : List Char) : s = (takeDigits s).1 ++ (takeDigits s).2 := by
  induction s with
  | nil => rfl
  | cons c r ih =>
    by_cases h : c.isDigit
    · simpa [takeDigits, h] using ih
    · simp [takeDigits, h]

theorem takeDigits_all (ds : List Char) (h : ds.all Char.isDigit = true) :
    takeDigits ds = (ds, []) := by
  have := takeDigits_app ds [] h
  simpa [takeDigits] using this

theorem matchLit_app (l rest : List Char) : matchLit l (l ++ rest) = some rest := by
  induction l with
  | nil => rfl
  | cons c cs ih => simp [matchLit, ih]

theorem splitSign_neg (r : List Char) : splitSign ('-' :: r) = (true, r) := by
  simp [splitSign]

theorem splitSign_digit (s : List Char) (h : headDigit s = true) :
    splitSign s = (false, s) := by
  cases s with
  | nil => rfl
  | cons c r =>
    simp only [headDigit] at h
    have hc : c ≠ '-' := by
      intro he
      rw [he] at h
      exact absurd h (by decide)
    simp [splitSign, hc]

theorem splitFrac_stop (s : List Char) (h : headDot s = false) :
    splitFrac s = ([], s) := by
  cases s with
  | nil => rfl
  | cons c r =>
    simp only [headDot, decide_eq_false_iff_not] at h
    simp [splitFrac, h]

theorem goodDigitsB_ne (ds : List Char) (h : goodDigitsB ds = true) : ds ≠ [] := by
  intro he
  rw [he] at h
  exact absurd h (by decide)

theorem goodDigitsB_all (ds : List Char) (h : goodDigitsB ds = true) :
    ds.all Char.isDigit = true := by
  simp only [goodDigitsB, Bool.and_eq_true] at h
  exact h.2

theorem numBoundary_digit (s : List Char) (h : numBoundary s = true) :
    headDigit s = false := by
  simp only [numBoundary, Bool.and_eq_true, Bool.not_eq_eq_eq_not, Bool.not_true] at h
  exact h.1

theorem numBoundary_dot (s : List Char) (h : numBoundary s = true) :
    headDot s = false := by
  simp only [numBoundary, Bool.and_eq_true, Bool.not_eq_eq_eq_not, Bool.not_true] at h
  exact h.2

theorem headDigit_app_good (ds rest : List Char) (h : goodDigitsB ds = true) :
    headDigit (ds ++ rest) = true := by
  cases ds with
  | nil => exact absurd rfl (goodDigitsB_ne [] h)
  | cons c cs =>
    have := goodDigitsB_all _ h
    simp only [List.all_cons, Bool.and_eq_true] at this
    simpa [headDigit] using this.1

theorem matchNumber_chars (t : NumTok) (rest : List Char) (hg : t.goodB = true)
    (hb : numBoundary rest = true) :
    matchNumber (t.chars ++ rest) = some (t.chars, rest) := by
  obtain ⟨neg, ip, fp⟩ := t
  simp only [NumTok.goodB, Bool.and_eq_true] at hg
  obtain ⟨hip, hfp⟩ := hg
  have hipne : ip ≠ [] := goodDigitsB_ne _ hip
  have hipall : ip.all Char.isDigit = true := goodDigitsB_all _ hip
  have hbd : headDigit rest = false := numBoundary_digit _ hb
  have hbdot : headDot rest = false := numBoundary_dot _ hb
  cases fp with
  | none =>
    cases neg with
    | true =>
      simp only [NumTok.chars, if_true, List.append_nil, List.cons_append, List.nil_append,
        List.append_assoc]
      simp [matchNumber, splitSign_neg, takeDigits_app _ _ hipall, takeDigits_stop _ hbd,
        splitFrac_stop _ hbdot, hipne]
    | false =>
      simp only [NumTok.chars, if_false, List.append_nil, List.nil_append, List.append_assoc]
      have hsn : splitSign (ip ++ rest) = (false, ip ++ rest) :=
        splitSign_digit _ (headDigit_app_good _ _ hip)
      simp [matchNumber, hsn, takeDigits_app _ _ hipall, takeDigits_stop _ hbd,
        splitFrac_stop _ hbdot, hipne]
  | some f =>
    have hf : goodDigitsB f = true := by simpa [Option.all] using hfp
    have hfne : f ≠ [] := goodDigitsB_ne _ hf
    have hfall : f.all Char.isDigit = true := goodDigitsB_all _ hf
    have hdotstop : headDigit ('.' :: (f ++ rest)) = false := by simp [headDigit, Char.isDigit]
    cases neg with
    | true =>
      simp only [NumTok.chars, if_true, List.cons_append, List.nil_append, List.append_assoc]
      simp [matchNumber, splitSign_neg, takeDigits_app _ _ hipall, takeDigits_stop _ hdotstop,
        hipne, splitFrac, takeDigits_app _ _ hfall, takeDigits_stop _ hbd, hfne]
    | false =>
      simp only [NumTok.chars, if_false, List.nil_append, List.append_assoc]
      have hsn : splitSign (ip ++ ('.' :: f ++ rest)) = (false, ip ++ ('.' :: f ++ rest)) :=
        splitSign_digit _ (headDigit_app_good _ _ hip)
      simp only [List.cons_append, List.append_assoc] at hsn
      simp [matchNumber, hsn, takeDigits_app _ _ hipall, takeDigits_stop _ hdotstop,
        hipne, splitFrac, takeDigits_app _ _ hfall, takeDigits_stop _ hbd, hfne]

theorem matchNumber_app_isSome (t : NumTok) (rest : List Char) (hg : t.goodB = true) :
    (matchNumber (t.chars ++ rest)).isSome = true := by
  obtain ⟨neg, ip, fp⟩ := t
  simp only [NumTok.goodB, Bool.and_eq_true] at hg
  obtain ⟨hip, hfp⟩ := hg
  have hipne : ip ≠ [] := goodDigitsB_ne _ hip
  have hipall : ip.all Char.isDigit = true := goodDigitsB_all _ hip
  cases fp with
  | none =>
    cases neg with
    | true =>
      simp only [NumTok.chars, if_true, List.append_nil, List.cons_append, List.nil_append,
        List.append_assoc]
      simp [matchNumber, splitSign_neg, takeDigits_app _ _ hipall, hipne]
    | false =>
      simp only [NumTok.chars, if_false, List.append_nil, List.nil_append, List.append_assoc]
      have hsn : splitSign (ip ++ rest) = (false, ip ++ rest) :=
        splitSign_digit _ (headDigit_app_good _ _ hip)
      simp [matchNumber, hsn, takeDigits_app _ _ hipall, hipne]
  | some f =>
    cases neg with
    | true =>
      simp only [NumTok.chars, if_true, List.cons_append, List.nil_append, List.append_assoc]
      simp [matchNumber, splitSign_neg, takeDigits_app _ _ hipall, hipne]
    | false =>
      simp only [NumTok.chars, if_false, List.nil_append, List.append_assoc]
      have hsn : splitSign (ip ++ ('.' :: f ++ rest)) = (false, ip ++ ('.' :: f ++ rest)) :=
        splitSign_digit _ (headDigit_app_good _ _ hip)
      simp only [List.cons_append, List.append_assoc] at hsn
      simp [matchNumber, hsn, takeDigits_app _ _ hipall, hipne]

theorem splitFrac_shape (s fc r : List Char) (h : splitFrac s = (fc, r)) :
    fc = [] ∨ ∃ f, fc = '.' :: f ∧ goodDigitsB f = true := by
  cases s with
  | nil =>
    simp only [splitFrac, Prod.mk.injEq] at h
    exact Or.inl h.1.symm
  | cons c t =>
    by_cases hc : c = '.'
    · subst hc
      by_cases he : (takeDigits t).1 = []
      · simp [splitFrac, he] at h
        exact Or.inl h.1
      · simp [splitFrac, he] at h
        refine Or.inr ⟨(takeDigits t).1, h.1.symm, ?_⟩
        have hall := takeDigits_digits t
        cases hl : (takeDigits t).1 with
        | nil => exact absurd hl he
        | cons d ds =>
          rw [hl] at hall
          simp [goodDigitsB, hall]
    · simp [splitFrac, hc] at h
      exact Or.inl h.1

theorem matchNumber_shape (s t r : List Char) (h : matchNumber s = some (t, r)) :
    ∃ tok : NumTok, tok.goodB = true ∧ t = tok.chars := by
  rcases hsg : splitSign s with ⟨ng, s1⟩
  rcases htd : takeDigits s1 with ⟨ip, s2⟩
  rcases hfr : splitFrac s2 with ⟨fc, s3⟩
  unfold matchNumber at h
  rw [hsg] at h
  simp only at h
  rw [htd] at h
  simp only at h
  by_cases hip : ip = []
  · simp [hip] at h
  · rw [hfr] at h
    simp only [hip, if_false, Option.some.injEq, Prod.mk.injEq] at h
    have hipall : ip.all Char.isDigit = true := by
      have := takeDigits_digits s1
      rw [htd] at this
      exact this
    have hipgood : goodDigitsB ip = true := by
      cases hl : ip with
      | nil => exact absurd hl hip
      | cons d ds =>
        rw [hl] at hipall
        simp [goodDigitsB, hipall]
    rcases splitFrac_shape _ _ _ hfr with hfc | ⟨f, hfc, hf⟩
    · refine ⟨⟨ng, ip, none⟩, ?_, ?_⟩
      · simp [NumTok.goodB, hipgood, Option.all]
      · rw [← h.1, hfc]
        simp [NumTok.chars]
    · refine ⟨⟨ng, ip, some f⟩, ?_, ?_⟩
      · simp [NumTok.goodB, hipgood, Option.all, hf]
      · rw [← h.1, hfc]
        simp [NumTok.chars]

theorem ratOfTok_chars (t : NumTok) (hg : t.goodB = true) :
    ratOfTok t.chars = some t.val := by
  obtain ⟨neg, ip, fp⟩ := t
  simp only [NumTok.goodB, Bool.and_eq_true] at hg
  obtain ⟨hip, hfp⟩ := hg
  have hipne : ip ≠ [] := goodDigitsB_ne _ hip
  have hipall : ip.all Char.isDigit = true := goodDigitsB_all _ hip
  cases fp with
  | none =>
    cases neg with
    | true =>
      simp only [NumTok.chars, if_true, List.append_nil, List.cons_append, List.nil_append]
      simp [ratOfTok, splitSign_neg, takeDigits_all _ hipall, hipne, NumTok.val]
    | false =>
      simp only [NumTok.chars, if_false, List.append_nil, List.nil_append]
      have hsn : splitSign ip = (false, ip) := by
        have := splitSign_digit (ip ++ []) (headDigit_app_good _ _ hip)
        simpa using this
      simp [ratOfTok, hsn, takeDigits_all _ hipall, hipne, NumTok.val]
  | some f =>
    have hf : goodDigitsB f = true := by simpa [Option.all] using hfp
    have hfne : f ≠ [] := goodDigitsB_ne _ hf
    have hfall : f.all Char.isDigit = true := goodDigitsB_all _ hf
    have hdotstop : headDigit ('.' :: f) = false := by simp [headDigit, Char.isDigit]
    cases neg with
    | true =>
      simp only [NumTok.chars, if_true, List.cons_append, List.nil_append]
      simp [ratOfTok, splitSign_neg, takeDigits_app _ _ hipall, takeDigits_stop _ hdotstop,
        hipne, takeDigits_all _ hfall, hfne, NumTok.val]
    | false =>
      simp only [NumTok.chars, if_false, List.nil_append]
      have hsn : splitSign (ip ++ '.' :: f) = (false, ip ++ '.' :: f) :=
        splitSign_digit _ (headDigit_app_good _ _ hip)
      simp [ratOfTok, hsn, takeDigits_app _ _ hipall, takeDigits_stop _ hdotstop,
        hipne, takeDigits_all _ hfall, hfne, NumTok.val]

theorem headDigit_good (ds : List Char) (h : goodDigitsB ds = true) :
    headDigit ds = true := by
  have := headDigit_app_good ds [] h
  simpa using this

theorem matchIntTok_chars (t : IntTok) (rest : List Char) (hg : t.goodB = true)
    (hb : headDigit rest = false) :
    matchIntTok (t.chars ++ rest) = some (t.chars, rest) := by
  obtain ⟨neg, ds⟩ := t
  simp only [IntTok.goodB] at hg
  have hne : ds ≠ [] := goodDigitsB_ne _ hg
  have hall : ds.all Char.isDigit = true := goodDigitsB_all _ hg
  cases neg with
  | true =>
    simp only [IntTok.chars, if_true, List.cons_append, List.nil_append]
    simp [matchIntTok, splitSign_neg, takeDigits_app _ _ hall, takeDigits_stop _ hb, hne]
  | false =>
    simp only [IntTok.chars, if_false, List.nil_append]
    have hsn : splitSign (ds ++ rest) = (false, ds ++ rest) :=
      splitSign_digit _ (headDigit_app_good _ _ hg)
    simp [matchIntTok, hsn, takeDigits_app _ _ hall, takeDigits_stop _ hb, hne]

theorem matchIntTok_app_isSome (t : IntTok) (rest : List Char) (hg : t.goodB = true) :
    (matchIntTok (t.chars ++ rest)).isSome = true := by
  obtain ⟨neg, ds⟩ := t
  simp only [IntTok.goodB] at hg
  have hne : ds ≠ [] := goodDigitsB_ne _ hg
  have hall : ds.all Char.isDigit = true := goodDigitsB_all _ hg
  cases neg with
  | true =>
    simp only [IntTok.chars, if_true, List.cons_append, List.nil_append]
    simp [matchIntTok, splitSign_neg, takeDigits_app _ _ hall, hne]
  | false =>
    simp only [IntTok.chars, if_false, List.nil_append]
    have hsn : splitSign (ds ++ rest) = (false, ds ++ rest) :=
      splitSign_digit _ (headDigit_app_good _ _ hg)
    simp [matchIntTok, hsn, takeDigits_app _ _ hall, hne]

theorem matchUIntTok_chars (ds rest : List Char) (hg : goodDigitsB ds = true)
    (hb : headDigit rest = false) :
    matchUIntTok (ds ++ rest) = some (ds, rest) := by
  have hne : ds ≠ [] := goodDigitsB_ne _ hg
  have hall : ds.all Char.isDigit = true := goodDigitsB_all _ hg
  simp [matchUIntTok, takeDigits_app _ _ hall, takeDigits_stop _ hb, hne]

theorem matchUIntTok_app_isSome (ds rest : List Char) (hg : goodDigitsB ds = true) :
    (matchUIntTok (ds ++ rest)).isSome = true := by
  have hne : ds ≠ [] := goodDigitsB_ne _ hg
  have hall : ds.all Char.isDigit = true := goodDigitsB_all _ hg
  simp [matchUIntTok, takeDigits_app _ _ hall, hne]

theorem matchIntTok_shape (s t r : List Char) (h : matchIntTok s = some (t, r)) :
    ∃ tok : IntTok, tok.goodB = true ∧ t = tok.chars := by
  rcases hsg : splitSign s with ⟨ng, s1⟩
  rcases htd : takeDigits s1 with ⟨ip, s2⟩
  unfold matchIntTok at h
  rw [hsg] at h
  simp only at h
  rw [htd] at h
  simp only at h
  by_cases hip : ip = []
  · simp [hip] at h
  · simp only [hip, if_false, Option.some.injEq, Prod.mk.injEq] at h
    have hipall : ip.all Char.isDigit = true := by
      have := takeDigits_digits s1
      rw [htd] at this
      exact this
    have hipgood : goodDigitsB ip = true := by
      cases hl : ip with
      | nil => exact absurd hl hip
      | cons d dd =>
        rw [hl] at hipall
        simp [goodDigitsB, hipall]
    exact ⟨⟨ng, ip⟩, hipgood, by rw [← h.1]; simp [IntTok.chars]⟩

theorem matchUIntTok_shape (s t r : List Char) (h : matchUIntTok s = some (t, r)) :
    goodDigitsB t = true := by
  rcases htd : takeDigits s with ⟨ip, s2⟩
  unfold matchUIntTok at h
  rw [htd] at h
  simp only at h
  by_cases hip : ip = []
  · simp [hip] at h
  · simp only [hip, if_false, Option.some.injEq, Prod.mk.injEq] at h
    have hipall : ip.all Char.isDigit = true := by
      have := takeDigits_digits s
      rw [htd] at this
      exact this
    rw [← h.1]
    cases hl : ip with
    | nil => exact absurd hl hip
    | cons d dd =>
      rw [hl] at hipall
      simp [goodDigitsB, hipall]

theorem intOfTok_chars (t : IntTok) (hg : t.goodB = true) :
    intOfTok t.chars = some t.val := by
  obtain ⟨neg, ds⟩ := t
  simp only [IntTok.goodB] at hg
  have hne : ds ≠ [] := goodDigitsB_ne _ hg
  have hall : ds.all Char.isDigit = true := goodDigitsB_all _ hg
  cases neg with
  | true =>
    simp only [IntTok.chars, if_true, List.cons_append, List.nil_append]
    simp [intOfTok, splitSign_neg, takeDigits_all _ hall, hne, IntTok.val]
  | false =>
    simp only [IntTok.chars, if_false, List.nil_append]
    have hsn : splitSign ds = (false, ds) := splitSign_digit _ (headDigit_good _ hg)
    simp [intOfTok, hsn, takeDigits_all _ hall, hne, IntTok.val]

theorem intOfTok_digits (ds : List Char) (hg : goodDigitsB ds = true) :
    intOfTok ds = some (uintVal ds) := by
  have hne : ds ≠ [] := goodDigitsB_ne _ hg
  have hall : ds.all Char.isDigit = true := goodDigitsB_all _ hg
  have hsn : splitSign ds = (false, ds) := splitSign_digit _ (headDigit_good _ hg)
  simp [intOfTok, hsn, takeDigits_all _ hall, hne, uintVal]

/-! ### Lemmas on pattern search -/

theorem measMatchAt_notM (c : Char) (r : List Char) (hc : c ≠ 'M') :
    measMatchAt (c :: r) = none := by
  simp [measMatchAt, measLit, matchLit, hc]

theorem searchMeas_at (s : List Char) (g : MeasGroups) (h : measMatchAt s = some g) :
    searchMeas s = some g := by
  cases s with
  | nil => simpa [searchMeas] using h
  | cons c r => simp [searchMeas, h]

theorem searchCal_at (s : List Char) (g : CalGroups) (h : calMatchAt s = some g) :
    searchCal s = some g := by
  cases s with
  | nil => simpa [searchCal] using h
  | cons c r => simp [searchCal, h]

theorem searchMeas_app_isSome (pre s : List Char) (h : (measMatchAt s).isSome = true) :
    (searchMeas (pre ++ s)).isSome = true := by
  induction pre with
  | nil =>
    obtain ⟨g, hg⟩ := Option.isSome_iff_exists.mp h
    simp [searchMeas_at s g hg]
  | cons c r ih =>
    cases hm : measMatchAt (c :: (r ++ s)) with
    | some g => simp [searchMeas, hm]
    | none => simpa [searchMeas, hm] using ih

theorem searchCal_app_isSome (pre s : List Char) (h : (calMatchAt s).isSome = true) :
    (searchCal (pre ++ s)).isSome = true := by
  induction pre with
  | nil =>
    obtain ⟨g, hg⟩ := Option.isSome_iff_exists.mp h
    simp [searchCal_at s g hg]
  | cons c r ih =>
    cases hm : calMatchAt (c :: (r ++ s)) with
    | some g => simp [searchCal, hm]
    | none => simpa [searchCal, hm] using ih

theorem searchMeas_noM (s : List Char) (h : 'M' ∉ s) : searchMeas s = none := by
  induction s with
  | nil => rfl
  | cons c r ih =>
    simp only [List.mem_cons, not_or] at h
    have hc : c ≠ 'M' := fun he => h.1 he.symm
    simp [searchMeas, measMatchAt_notM c r hc, ih h.2]

theorem searchMeas_shape (s : List Char) (g : MeasGroups) (h : searchMeas s = some g) :
    ∃ u, measMatchAt u = some g := by
  induction s with
  | nil => exact ⟨[], by simpa [searchMeas] using h⟩
  | cons c r ih =>
    cases hm : measMatchAt (c :: r) with
    | some g' =>
      simp only [searchMeas, hm, Option.some.injEq] at h
      exact ⟨c :: r, by rw [hm, h]⟩
    | none =>
      rw [searchMeas, hm] at h
      exact ih h

theorem searchCal_shape (s : List Char) (g : CalGroups) (h : searchCal s = some g) :
    ∃ u, calMatchAt u = some g := by
  induction s with
  | nil => exact ⟨[], by simpa [searchCal] using h⟩
  | cons c r ih =>
    cases hm : calMatchAt (c :: r) with
    | some g' =>
      simp only [searchCal, hm, Option.some.injEq] at h
      exact ⟨c :: r, by rw [hm, h]⟩
    | none =>
      rw [searchCal, hm] at h
      exact ih h

/-! ### Matching full grammar lines -/

theorem numBoundary_sep (x : List Char) : numBoundary (sep ++ x) = true := rfl

theorem headDigit_sep (x : List Char) : headDigit (sep ++ x) = false := rfl

theorem matchNumber_chars_nil (t : NumTok) (hg : t.goodB = true) :
    matchNumber t.chars = some (t.chars, []) := by
  simpa using matchNumber_chars t [] hg rfl

theorem matchUIntTok_nil (ds : List Char) (hg : goodDigitsB ds = true) :
    matchUIntTok ds = some (ds, []) := by
  simpa using matchUIntTok_chars ds [] hg rfl

theorem measMatchAt_line (t1 t2 t3 t4 t5 t6 : NumTok)
    (h1 : t1.goodB = true) (h2 : t2.goodB = true) (h3 : t3.goodB = true)
    (h4 : t4.goodB = true) (h5 : t5.goodB = true) (h6 : t6.goodB = true) :
    measMatchAt (measLineChars t1 t2 t3 t4 t5 t6) =
      some ⟨t1.chars, t2.chars, t3.chars, t4.chars, t5.chars, t6.chars⟩ := by
  unfold measLineChars measMatchAt
  rw [matchLit_app]
  simp only [Option.some_bind]
  rw [matchNumber_chars t1 _ h1 (numBoundary_sep _)]
  simp only [Option.some_bind]
  rw [matchLit_app]
  simp only [Option.some_bind]
  rw [matchNumber_chars t2 _ h2 (numBoundary_sep _)]
  simp only [Option.some_bind]
  rw [matchLit_app]
  simp only [Option.some_bind]
  rw [matchNumber_chars t3 _ h3 (numBoundary_sep _)]
  simp only [Option.some_bind]
  rw [matchLit_app]
  simp only [Option.some_bind]
  rw [matchNumber_chars t4 _ h4 (numBoundary_sep _)]
  simp only [Option.some_bind]
  rw [matchLit_app]
  simp only [Option.some_bind]
  rw [matchNumber_chars t5 _ h5 (numBoundary_sep _)]
  simp only [Option.some_bind]
  rw [matchLit_app]
  simp only [Option.some_bind]
  rw [matchNumber_chars_nil t6 h6]
  simp only [Option.some_bind]

theorem calMatchAt_line (u1 u2 u3 u4 u5 u6 : IntTok) (u7 : List Char)
    (h1 : u1.goodB = true) (h2 : u2.goodB = true) (h3 : u3.goodB = true)
    (h4 : u4.goodB = true) (h5 : u5.goodB = true) (h6 : u6.goodB = true)
    (h7 : goodDigitsB u7 = true) :
    calMatchAt (calLineChars u1 u2 u3 u4 u5 u6 u7) =
      some ⟨u1.chars, u2.chars, u3.chars, u4.chars, u5.chars, u6.chars, u7⟩ := by
  unfold calLineChars calMatchAt
  rw [matchLit_app]
  simp only [Option.some_bind]
  rw [matchIntTok_chars u1 _ h1 (headDigit_sep _)]
  simp only [Option.some_bind]
  rw [matchLit_app]
  simp only [Option.some_bind]
  rw [matchIntTok_chars u2 _ h2 (headDigit_sep _)]
  simp only [Option.some_bind]
  rw [matchLit_app]
  simp only [Option.some_bind]
  rw [matchIntTok_chars u3 _ h3 (headDigit_sep _)]
  simp only [Option.some_bind]
  rw [matchLit_app]
  simp only [Option.some_bind]
  rw [matchIntTok_chars u4 _ h4 (headDigit_sep _)]
  simp only [Option.some_bind]
  rw [matchLit_app]
  simp only [Option.some_bind]
  rw [matchIntTok_chars u5 _ h5 (headDigit_sep _)]
  simp only [Option.some_bind]
  rw [matchLit_app]
  simp only [Option.some_bind]
  rw [matchIntTok_chars u6 _ h6 (headDigit_sep _)]
  simp only [Option.some_bind]
  rw [matchLit_app]
  simp only [Option.some_bind]
  rw [matchUIntTok_nil u7 h7]
  simp only [Option.some_bind]

theorem measMatchAt_line_post (t1 t2 t3 t4 t5 t6 : NumTok) (post : List Char)
    (h1 : t1.goodB = true) (h2 : t2.goodB = true) (h3 : t3.goodB = true)
    (h4 : t4.goodB = true) (h5 : t5.goodB = true) (h6 : t6.goodB = true) :
    (measMatchAt (measLineChars t1 t2 t3 t4 t5 t6 ++ post)).isSome = true := by
  unfold measLineChars measMatchAt
  simp only [List.append_assoc]
  rw [matchLit_app]
  simp only [Option.some_bind]
  rw [matchNumber_chars t1 _ h1 (numBoundary_sep _)]
  simp only [Option.some_bind]
  rw [matchLit_app]
  simp only [Option.some_bind]
  rw [matchNumber_chars t2 _ h2 (numBoundary_sep _)]
  simp only [Option.some_bind]
  rw [matchLit_app]
  simp only [Option.some_bind]
  rw [matchNumber_chars t3 _ h3 (numBoundary_sep _)]
  simp only [Option.some_bind]
  rw [matchLit_app]
  simp only [Option.some_bind]
  rw [matchNumber_chars t4 _ h4 (numBoundary_sep _)]
  simp only [Option.some_bind]
  rw [matchLit_app]
  simp only [Option.some_bind]
  rw [matchNumber_chars t5 _ h5 (numBoundary_sep _)]
  simp only [Option.some_bind]
  rw [matchLit_app]
  simp only [Option.some_bind]
  obtain ⟨p6, hp6⟩ := Option.isSome_iff_exists.mp (matchNumber_app_isSome t6 post h6)
  rw [hp6]
  simp only [Option.some_bind, Option.isSome_some]

theorem calMatchAt_line_post (u1 u2 u3 u4 u5 u6 : IntTok) (u7 : List Char) (post : List Char)
    (h1 : u1.goodB = true) (h2 : u2.goodB = true) (h3 : u3.goodB = true)
    (h4 : u4.goodB = true) (h5 : u5.goodB = true) (h6 : u6.goodB = true)
    (h7 : goodDigitsB u7 = true) :
    (calMatchAt (calLineChars u1 u2 u3 u4 u5 u6 u7 ++ post)).isSome = true := by
  unfold calLineChars calMatchAt
  simp only [List.append_assoc]
  rw [matchLit_app]
  simp only [Option.some_bind]
  rw [matchIntTok_chars u1 _ h1 (headDigit_sep _)]
  simp only [Option.some_bind]
  rw [matchLit_app]
  simp only [Option.some_bind]
  rw [matchIntTok_chars u2 _ h2 (headDigit_sep _)]
  simp only [Option.some_bind]
  rw [matchLit_app]
  simp only [Option.some_bind]
  rw [matchIntTok_chars u3 _ h3 (headDigit_sep _)]
  simp only [Option.some_bind]
  rw [matchLit_app]
  simp only [Option.some_bind]
  rw [matchIntTok_chars u4 _ h4 (headDigit_sep _)]
  simp only [Option.some_bind]
  rw [matchLit_app]
  simp only [Option.some_bind]
  rw [matchIntTok_chars u5 _ h5 (headDigit_sep _)]
  simp only [Option.some_bind]
  rw [matchLit_app]
  simp only [Option.some_bind]
  rw [matchIntTok_chars u6 _ h6 (headDigit_sep _)]
  simp only [Option.some_bind]
  rw [matchLit_app]
  simp only [Option.some_bind]
  obtain ⟨p7, hp7⟩ := Option.isSome_iff_exists.mp (matchUIntTok_app_isSome u7 post h7)
  rw [hp7]
  simp only [Option.some_bind, Option.isSome_some]

/-! ### Decoding lemmas -/

theorem measDecode_line (t1 t2 t3 t4 t5 t6 : NumTok)
    (h1 : t1.goodB = true) (h2 : t2.goodB = true) (h3 : t3.goodB = true)
    (h4 : t4.goodB = true) (h5 : t5.goodB = true) (h6 : t6.goodB = true) :
    measDecode ⟨t1.chars, t2.chars, t3.chars, t4.chars, t5.chars, t6.chars⟩ =
      .ok (.meas ⟨(t1.val, t2.val, t3.val), (t4.val, t5.val, t6.val)⟩) := by
  simp [measDecode, pyFloat, ratOfTok_chars _ h1, ratOfTok_chars _ h2, ratOfTok_chars _ h3,
    ratOfTok_chars _ h4, ratOfTok_chars _ h5, ratOfTok_chars _ h6]

theorem calDecode_line (u1 u2 u3 u4 u5 u6 : IntTok) (u7 : List Char)
    (h1 : u1.goodB = true) (h2 : u2.goodB = true) (h3 : u3.goodB = true)
    (h4 : u4.goodB = true) (h5 : u5.goodB = true) (h6 : u6.goodB = true)
    (h7 : goodDigitsB u7 = true) :
    calDecode ⟨u1.chars, u2.chars, u3.chars, u4.chars, u5.chars, u6.chars, u7⟩ =
      .ok (.cal ⟨true, (u1.val, u2.val, u3.val), (u4.val, u5.val, u6.val), uintVal u7⟩) := by
  simp [calDecode, pyInt, intOfTok_chars _ h1, intOfTok_chars _ h2, intOfTok_chars _ h3,
    intOfTok_chars _ h4, intOfTok_chars _ h5, intOfTok_chars _ h6, intOfTok_digits _ h7]

theorem measDecode_ok_of_matchAt (u : List Char) (g : MeasGroups)
    (h : measMatchAt u = some g) : ∃ m, measDecode g = .ok (.meas m) := by
  unfold measMatchAt at h
  simp only [Option.bind_eq_some, Option.some.injEq] at h
  obtain ⟨s0, h0, p1, hp1, s1, hs1, p2, hp2, s2, hs2, p3, hp3, s3, hs3, p4, hp4, s4, hs4,
    p5, hp5, s5, hs5, p6, hp6, hg⟩ := h
  obtain ⟨k1, hk1, hc1⟩ := matchNumber_shape _ p1.1 p1.2 hp1
  obtain ⟨k2, hk2, hc2⟩ := matchNumber_shape _ p2.1 p2.2 hp2
  obtain ⟨k3, hk3, hc3⟩ := matchNumber_shape _ p3.1 p3.2 hp3
  obtain ⟨k4, hk4, hc4⟩ := matchNumber_shape _ p4.1 p4.2 hp4
  obtain ⟨k5, hk5, hc5⟩ := matchNumber_shape _ p5.1 p5.2 hp5
  obtain ⟨k6, hk6, hc6⟩ := matchNumber_shape _ p6.1 p6.2 hp6
  refine ⟨⟨(k1.val, k2.val, k3.val), (k4.val, k5.val, k6.val)⟩, ?_⟩
  rw [← hg]
  simp [measDecode, pyFloat, hc1, hc2, hc3, hc4, hc5, hc6, ratOfTok_chars _ hk1,
    ratOfTok_chars _ hk2, ratOfTok_chars _ hk3, ratOfTok_chars _ hk4,
    ratOfTok_chars _ hk5, ratOfTok_chars _ hk6]

theorem calDecode_ok_of_matchAt (u : List Char) (g : CalGroups)
    (h : calMatchAt u = some g) : ∃ c, calDecode g = .ok (.cal c) := by
  unfold calMatchAt at h
  simp only [Option.bind_eq_some, Option.some.injEq] at h
  obtain ⟨s0, h0, p1, hp1, s1, hs1, p2, hp2, s2, hs2, p3, hp3, s3, hs3, p4, hp4, s4, hs4,
    p5, hp5, s5, hs5, p6, hp6, s6, hs6, p7, hp7, hg⟩ := h
  obtain ⟨k1, hk1, hc1⟩ := matchIntTok_shape _ p1.1 p1.2 hp1
  obtain ⟨k2, hk2, hc2⟩ := matchIntTok_shape _ p2.1 p2.2 hp2
  obtain ⟨k3, hk3, hc3⟩ := matchIntTok_shape _ p3.1 p3.2 hp3
  obtain ⟨k4, hk4, hc4⟩ := matchIntTok_shape _ p4.1 p4.2 hp4
  obtain ⟨k5, hk5, hc5⟩ := matchIntTok_shape _ p5.1 p5.2 hp5
  obtain ⟨k6, hk6, hc6⟩ := matchIntTok_shape _ p6.1 p6.2 hp6
  have hk7 := matchUIntTok_shape _ p7.1 p7.2 hp7
  refine ⟨⟨true, (k1.val, k2.val, k3.val), (k4.val, k5.val, k6.val), uintVal p7.1⟩, ?_⟩
  rw [← hg]
  simp [calDecode, pyInt, hc1, hc2, hc3, hc4, hc5, hc6, intOfTok_chars _ hk1,
    intOfTok_chars _ hk2, intOfTok_chars _ hk3, intOfTok_chars _ hk4,
    intOfTok_chars _ hk5, intOfTok_chars _ hk6, intOfTok_digits _ hk7]

theorem measDecode_cases (g : MeasGroups) :
    (∃ r, measDecode g = .ok r) ∨ measDecode g = .error .valueError := by
  cases hr1 : ratOfTok g.g1 with
  | none => exact Or.inr (by simp [measDecode, pyFloat, hr1])
  | some v1 =>
  cases hr2 : ratOfTok g.g2 with
  | none => exact Or.inr (by simp [measDecode, pyFloat, hr1, hr2])
  | some v2 =>
  cases hr3 : ratOfTok g.g3 with
  | none => exact Or.inr (by simp [measDecode, pyFloat, hr1, hr2, hr3])
  | some v3 =>
  cases hr4 : ratOfTok g.g4 with
  | none => exact Or.inr (by simp [measDecode, pyFloat, hr1, hr2, hr3, hr4])
  | some v4 =>
  cases hr5 : ratOfTok g.g5 with
  | none => exact Or.inr (by simp [measDecode, pyFloat, hr1, hr2, hr3, hr4, hr5])
  | some v5 =>
  cases hr6 : ratOfTok g.g6 with
  | none => exact Or.inr (by simp [measDecode, pyFloat, hr1, hr2, hr3, hr4, hr5, hr6])
  | some v6 =>
    exact Or.inl ⟨.meas ⟨(v1, v2, v3), (v4, v5, v6)⟩,
      by simp [measDecode, pyFloat, hr1, hr2, hr3, hr4, hr5, hr6]⟩

theorem calDecode_cases (g : CalGroups) :
    (∃ r, calDecode g = .ok r) ∨ calDecode g = .error .valueError := by
  cases hr1 : intOfTok g.g1 with
  | none => exact Or.inr (by simp [calDecode, pyInt, hr1])
  | some v1 =>
  cases hr2 : intOfTok g.g2 with
  | none => exact Or.inr (by simp [calDecode, pyInt, hr1, hr2])
  | some v2 =>
  cases hr3 : intOfTok g.g3 with
  | none => exact Or.inr (by simp [calDecode, pyInt, hr1, hr2, hr3])
  | some v3 =>
  cases hr4 : intOfTok g.g4 with
  | none => exact Or.inr (by simp [calDecode, pyInt, hr1, hr2, hr3, hr4])
  | some v4 =>
  cases hr5 : intOfTok g.g5 with
  | none => exact Or.inr (by simp [calDecode, pyInt, hr1, hr2, hr3, hr4, hr5])
  | some v5 =>
  cases hr6 : intOfTok g.g6 with
  | none => exact Or.inr (by simp [calDecode, pyInt, hr1, hr2, hr3, hr4, hr5, hr6])
  | some v6 =>
  cases hr7 : intOfTok g.g7 with
  | none => exact Or.inr (by simp [calDecode, pyInt, hr1, hr2, hr3, hr4, hr5, hr6, hr7])
  | some v7 =>
    exact Or.inl ⟨.cal ⟨true, (v1, v2, v3), (v4, v5, v6), v7⟩,
      by simp [calDecode, pyInt, hr1, hr2, hr3, hr4, hr5, hr6, hr7]⟩

theorem calStep_cases (line : String) : ∃ r, calStep line = .ok r := by
  cases hs : searchCal line.data with
  | none => exact ⟨.noMatch, by simp [calStep, hs]⟩
  | some g =>
    rcases calDecode_cases g with ⟨r, hr⟩ | hr
    · exact ⟨r, by simp [calStep, hs, hr]⟩
    · exact ⟨.noMatch, by simp [calStep, hs, hr]⟩

/-! ### Lines that never contain the Measurement literal -/

theorem notM_digits (ds : List Char) (hg : goodDigitsB ds = true) : 'M' ∉ ds := by
  intro hm
  have hall := goodDigitsB_all _ hg
  rw [List.all_eq_true] at hall
  have := hall _ hm
  exact absurd this (by decide)

theorem notM_intTok (t : IntTok) (hg : t.goodB = true) : 'M' ∉ t.chars := by
  obtain ⟨neg, ds⟩ := t
  simp only [IntTok.goodB] at hg
  intro hm
  simp only [IntTok.chars, List.mem_append] at hm
  rcases hm with hm | hm
  · cases neg with
    | true =>
      rw [if_pos rfl] at hm
      rw [List.mem_singleton] at hm
      exact absurd hm (by decide)
    | false => simp at hm
  · exact notM_digits ds hg hm

theorem notM_calLine (u1 u2 u3 u4 u5 u6 : IntTok) (u7 : List Char)
    (h1 : u1.goodB = true) (h2 : u2.goodB = true) (h3 : u3.goodB = true)
    (h4 : u4.goodB = true) (h5 : u5.goodB = true) (h6 : u6.goodB = true)
    (h7 : goodDigitsB u7 = true) :
    'M' ∉ calLineChars u1 u2 u3 u4 u5 u6 u7 := by
  simp only [calLineChars, List.mem_append, not_or]
  refine ⟨by decide, notM_intTok u1 h1, by decide, notM_intTok u2 h2, by decide,
    notM_intTok u3 h3, by decide, notM_intTok u4 h4, by decide, notM_intTok u5 h5,
    by decide, notM_intTok u6 h6, by decide, notM_digits u7 h7⟩

/-! ### Quaternion lemmas -/

theorem normSq_nonneg (v : Vec3) : 0 ≤ normSq v := by
  simp only [normSq]
  positivity

theorem qnormSq_qmul (a b : Quat4) : qnormSq (qmul a b) = qnormSq a * qnormSq b := by
  obtain ⟨a1, a2, a3, a4⟩ := a
  obtain ⟨b1, b2, b3, b4⟩ := b
  simp only [qnormSq, qmul]
  ring

theorem qnormSq_fqaFactored (ca sa ce se cr sr : ℚ)
    (h1 : ca ^ 2 + sa ^ 2 = 1) (h2 : ce ^ 2 + se ^ 2 = 1) (h3 : cr ^ 2 + sr ^ 2 = 1) :
    qnormSq (fqaFactored ca sa ce se cr sr) = 1 := by
  unfold fqaFactored
  rw [qnormSq_qmul, qnormSq_qmul]
  have e1 : qnormSq (ca, 0, 0, sa) = ca ^ 2 + sa ^ 2 := by
    simp only [qnormSq]
    ring
  have e2 : qnormSq (ce, 0, se, 0) = ce ^ 2 + se ^ 2 := by
    simp only [qnormSq]
    ring
  have e3 : qnormSq (cr, sr, 0, 0) = cr ^ 2 + sr ^ 2 := by
    simp only [qnormSq]
    ring
  rw [e1, e2, e3, h1, h2, h3]
  ring

/-! ### Claim theorems -/

/-- C1: the claim states that on every tick whose parsed line is a
Measurement, the driver updates the Orientation Estimator, derives the Euler
angles and publishes them with the pixel frame, with no exception propagating
out of the tick handler.  The code instead raises TypeError on every such
tick: on_timer calls quat.update(result, dt) with two arguments while
Quaternion.update is defined with the single parameter measurement, so the
call itself raises before any fusion happens, and nothing in on_timer catches
it.  This theorem shows the TypeError propagating out of the embedded tick
for every line that parses as a Measurement. -/
theorem c1_measurement_tick_raises_typeerror (fqa : Vec3 → Vec3 → Quat4)
    (st : TickState) (now : ℚ) (line : String) (m : Measurement)
    (h : parse_line line = Except.ok (ParseResult.meas m)) :
    on_timer fqa st now (some line) = Except.error PyError.typeError := by
  have hne : line ≠ "" := by
    intro he
    rw [he] at h
    have hempty : parse_line "" = Except.ok ParseResult.noMatch := rfl
    rw [hempty] at h
    simp at h
  simp [on_timer, hne, h, update_call_arg_count, update_param_count]

/-- Witness for C1: the tick running on the concrete line
"Measurement: 1, 2, 3, 4, 5, 6" raises TypeError. -/
theorem c1_measurement_tick_raises_typeerror_witness :
    parse_line (String.mk (measLineChars ⟨false, ['1'], none⟩ ⟨false, ['2'], none⟩
        ⟨false, ['3'], none⟩ ⟨false, ['4'], none⟩ ⟨false, ['5'], none⟩ ⟨false, ['6'], none⟩)) =
      Except.ok (ParseResult.meas ⟨((⟨false, ['1'], none⟩ : NumTok).val,
        (⟨false, ['2'], none⟩ : NumTok).val, (⟨false, ['3'], none⟩ : NumTok).val),
        ((⟨false, ['4'], none⟩ : NumTok).val, (⟨false, ['5'], none⟩ : NumTok).val,
        (⟨false, ['6'], none⟩ : NumTok).val)⟩) ∧
    on_timer (fun _ _ => (1, 0, 0, 0)) ⟨⟨"constant", 0, 0, 0, 0, 0, 0, 0⟩, (1, 0, 0, 0), 0⟩ 0
        (some (String.mk (measLineChars ⟨false, ['1'], none⟩ ⟨false, ['2'], none⟩
          ⟨false, ['3'], none⟩ ⟨false, ['4'], none⟩ ⟨false, ['5'], none⟩ ⟨false, ['6'], none⟩))) =
      Except.error PyError.typeError :=
  ⟨by rfl, c1_measurement_tick_raises_typeerror _ _ _ _ _ (by rfl)⟩

/-- C2: for every line that is the literal head "Measurement: " followed by
six well-formed decimal numbers (optional sign, digits, optional fractional
part) joined by ", ", parse_line returns a Measurement whose mag triple is
the first three numbers and whose acc triple is the last three, in declared
order, with the exact values of the six numbers. -/
theorem c2_parse_measurement_line (t1 t2 t3 t4 t5 t6 : NumTok)
    (h1 : t1.goodB = true) (h2 : t2.goodB = true) (h3 : t3.goodB = true)
    (h4 : t4.goodB = true) (h5 : t5.goodB = true) (h6 : t6.goodB = true) :
    parse_line (String.mk (measLineChars t1 t2 t3 t4 t5 t6)) =
      Except.ok (ParseResult.meas
        ⟨(t1.val, t2.val, t3.val), (t4.val, t5.val, t6.val)⟩) := by
  have hm := measMatchAt_line t1 t2 t3 t4 t5 t6 h1 h2 h3 h4 h5 h6
  have hs := searchMeas_at _ _ hm
  have hd := measDecode_line t1 t2 t3 t4 t5 t6 h1 h2 h3 h4 h5 h6
  have hdata : (String.mk (measLineChars t1 t2 t3 t4 t5 t6)).data =
      measLineChars t1 t2 t3 t4 t5 t6 := rfl
  simp [parse_line, hdata, hs, hd]

/-- Witness for C2 at the concrete line "Measurement: 1, -2.5, 3, 4, 5, 6". -/
theorem c2_parse_measurement_line_witness :
    (⟨false, ['1'], none⟩ : NumTok).goodB = true ∧
    (⟨true, ['2'], some ['5']⟩ : NumTok).goodB = true ∧
    parse_line (String.mk (measLineChars ⟨false, ['1'], none⟩ ⟨true, ['2'], some ['5']⟩
        ⟨false, ['3'], none⟩ ⟨false, ['4'], none⟩ ⟨false, ['5'], none⟩ ⟨false, ['6'], none⟩)) =
      Except.ok (ParseResult.meas ⟨((⟨false, ['1'], none⟩ : NumTok).val,
        (⟨true, ['2'], some ['5']⟩ : NumTok).val, (⟨false, ['3'], none⟩ : NumTok).val),
        ((⟨false, ['4'], none⟩ : NumTok).val, (⟨false, ['5'], none⟩ : NumTok).val,
        (⟨false, ['6'], none⟩ : NumTok).val)⟩) :=
  ⟨by decide, by decide,
    c2_parse_measurement_line _ _ _ _ _ _ (by decide) (by decide) (by decide) (by decide)
      (by decide) (by decide)⟩

/-- C3: for every line that is the literal head "Calibration: " followed by
six well-formed signed integers and one non-negative integer joined by ", ",
parse_line returns a Calibration with is_constant true, center the first
three integers, scale the next three, and radius the seventh, in declared
order. -/
theorem c3_parse_calibration_line (u1 u2 u3 u4 u5 u6 : IntTok) (u7 : List Char)
    (h1 : u1.goodB = true) (h2 : u2.goodB = true) (h3 : u3.goodB = true)
    (h4 : u4.goodB = true) (h5 : u5.goodB = true) (h6 : u6.goodB = true)
    (h7 : goodDigitsB u7 = true) :
    parse_line (String.mk (calLineChars u1 u2 u3 u4 u5 u6 u7)) =
      Except.ok (ParseResult.cal
        ⟨true, (u1.val, u2.val, u3.val), (u4.val, u5.val, u6.val), uintVal u7⟩) := by
  have hnoM := notM_calLine u1 u2 u3 u4 u5 u6 u7 h1 h2 h3 h4 h5 h6 h7
  have hsm : searchMeas (calLineChars u1 u2 u3 u4 u5 u6 u7) = none := searchMeas_noM _ hnoM
  have hcm := calMatchAt_line u1 u2 u3 u4 u5 u6 u7 h1 h2 h3 h4 h5 h6 h7
  have hsc := searchCal_at _ _ hcm
  have hd := calDecode_line u1 u2 u3 u4 u5 u6 u7 h1 h2 h3 h4 h5 h6 h7
  have hdata : (String.mk (calLineChars u1 u2 u3 u4 u5 u6 u7)).data =
      calLineChars u1 u2 u3 u4 u5 u6 u7 := rfl
  simp [parse_line, calStep, hdata, hsm, hsc, hd]

/-- Witness for C3 at the concrete line "Calibration: 1, -2, 3, 4, 5, 6, 7". -/
theorem c3_parse_calibration_line_witness :
    (⟨true, ['2']⟩ : IntTok).goodB = true ∧ goodDigitsB ['7'] = true ∧
    parse_line (String.mk (calLineChars ⟨false, ['1']⟩ ⟨true, ['2']⟩ ⟨false, ['3']⟩
        ⟨false, ['4']⟩ ⟨false, ['5']⟩ ⟨false, ['6']⟩ ['7'])) =
      Except.ok (ParseResult.cal ⟨true, ((⟨false, ['1']⟩ : IntTok).val,
        (⟨true, ['2']⟩ : IntTok).val, (⟨false, ['3']⟩ : IntTok).val),
        ((⟨false, ['4']⟩ : IntTok).val, (⟨false, ['5']⟩ : IntTok).val,
        (⟨false, ['6']⟩ : IntTok).val), uintVal ['7']⟩) :=
  ⟨by decide, by decide,
    c3_parse_calibration_line _ _ _ _ _ _ _ (by decide) (by decide) (by decide) (by decide)
      (by decide) (by decide) (by decide)⟩

/-- C4: parse_line never raises on any input line, and on every line matched
by neither pattern it returns None. -/
theorem c4_parse_line_never_raises (line : String) :
    (∃ r, parse_line line = Except.ok r) ∧
    (searchMeas line.data = none → searchCal line.data = none →
      parse_line line = Except.ok ParseResult.noMatch) := by
  constructor
  · cases hs : searchMeas line.data with
    | none =>
      obtain ⟨r, hcs⟩ := calStep_cases line
      exact ⟨r, by simp [parse_line, hs, hcs]⟩
    | some g =>
      rcases measDecode_cases g with ⟨r, hr⟩ | hr
      · exact ⟨r, by simp [parse_line, hs, hr]⟩
      · obtain ⟨r, hcs⟩ := calStep_cases line
        exact ⟨r, by simp [parse_line, hs, hr, hcs]⟩
  · intro hm hc
    simp [parse_line, calStep, hm, hc]

/-- Witness for C4 at the concrete unrecognized line "hello". -/
theorem c4_parse_line_never_raises_witness :
    searchMeas ("hello").data = none ∧ searchCal ("hello").data = none ∧
    parse_line "hello" = Except.ok ParseResult.noMatch :=
  ⟨by rfl, by rfl, (c4_parse_line_never_raises "hello").2 (by rfl) (by rfl)⟩

/-- C5: when the reconcile step at the top of the tick sees an externally
configured mode other than "constant", it writes exactly the single command
"SCAL\r" and resets the mode to "constant", and the subsequent reconcile step
on the resulting store writes nothing. -/
theorem c5_recalibration_one_shot (store : Store)
    (h : store.calibration_type ≠ "constant") :
    observe_desired store = ({ store with calibration_type := "constant" }, ["SCAL\r"]) ∧
    (observe_desired (observe_desired store).1).2 = [] := by
  constructor
  · simp [observe_desired, h]
  · simp [observe_desired, h]

/-- Witness for C5 at a store whose mode is "calibrate". -/
theorem c5_recalibration_one_shot_witness :
    (⟨"calibrate", 0, 0, 0, 0, 0, 0, 0⟩ : Store).calibration_type ≠ "constant" ∧
    observe_desired ⟨"calibrate", 0, 0, 0, 0, 0, 0, 0⟩ =
      (⟨"constant", 0, 0, 0, 0, 0, 0, 0⟩, ["SCAL\r"]) ∧
    (observe_desired (observe_desired ⟨"calibrate", 0, 0, 0, 0, 0, 0, 0⟩).1).2 = [] := by
  refine ⟨by decide, ?_⟩
  exact c5_recalibration_one_shot ⟨"calibrate", 0, 0, 0, 0, 0, 0, 0⟩ (by decide)

/-- C6: for every Calibration decoded by parse_line from a device report,
handle_calibration_data writes all seven numeric fields to the external store
unchanged and sets calibration_type to "constant". -/
theorem c6_device_report_writeback (line : String) (store : Store) (c : Calibration)
    (h : parse_line line = Except.ok (ParseResult.cal c)) :
    (handle_calibration_data store c).center_x = c.center.1 ∧
    (handle_calibration_data store c).center_y = c.center.2.1 ∧
    (handle_calibration_data store c).center_z = c.center.2.2 ∧
    (handle_calibration_data store c).scale_x = c.scale.1 ∧
    (handle_calibration_data store c).scale_y = c.scale.2.1 ∧
    (handle_calibration_data store c).scale_z = c.scale.2.2 ∧
    (handle_calibration_data store c).radius = c.radius ∧
    (handle_calibration_data store c).calibration_type = "constant" := by
  simp [handle_calibration_data]

/-- Witness for C6 at the concrete report "Calibration: 1, 2, 3, 4, 5, 6, 7". -/
theorem c6_device_report_writeback_witness :
    parse_line "Calibration: 1, 2, 3, 4, 5, 6, 7" =
      Except.ok (ParseResult.cal ⟨true, (1, 2, 3), (4, 5, 6), 7⟩) ∧
    (handle_calibration_data ⟨"x", 0, 0, 0, 0, 0, 0, 0⟩
        ⟨true, (1, 2, 3), (4, 5, 6), 7⟩).center_x = 1 ∧
    (handle_calibration_data ⟨"x", 0, 0, 0, 0, 0, 0, 0⟩
        ⟨true, (1, 2, 3), (4, 5, 6), 7⟩).radius = 7 ∧
    (handle_calibration_data ⟨"x", 0, 0, 0, 0, 0, 0, 0⟩
        ⟨true, (1, 2, 3), (4, 5, 6), 7⟩).calibration_type = "constant" := by
  have h : parse_line "Calibration: 1, 2, 3, 4, 5, 6, 7" =
      Except.ok (ParseResult.cal ⟨true, (1, 2, 3), (4, 5, 6), 7⟩) := by rfl
  have hc := c6_device_report_writeback "Calibration: 1, 2, 3, 4, 5, 6, 7"
    ⟨"x", 0, 0, 0, 0, 0, 0, 0⟩ ⟨true, (1, 2, 3), (4, 5, 6), 7⟩ h
  exact ⟨h, hc.1, hc.2.2.2.2.2.2.1, hc.2.2.2.2.2.2.2⟩

/-- C7: for every measurement whose accelerometer or magnetometer vector has
zero euclidean norm, Quaternion.update leaves the orientation quaternion
exactly unchanged and surfaces a warning, performing no fusion step; this
holds for every possible fusion function. -/
theorem c7_zero_vector_skips_update (fqa : Vec3 → Vec3 → Quat4) (q : Quat4)
    (m : Measurement) (h : normSq m.acc = 0 ∨ normSq m.mag = 0) :
    (Quaternion.update fqa q m).1 = q ∧
    ((Quaternion.update fqa q m).2).isSome = true := by
  rcases h with h | h
  · simp [Quaternion.update, h]
  · by_cases ha : 0 < normSq m.acc
    · simp [Quaternion.update, ha, h]
    · simp [Quaternion.update, ha]

/-- Witness for C7 at a zero accelerometer reading. -/
theorem c7_zero_vector_skips_update_witness :
    normSq (0, 0, 0) = 0 ∧
    (Quaternion.update (fun _ _ => (1, 0, 0, 0)) (1, 0, 0, 0)
      ⟨(1, 2, 3), (0, 0, 0)⟩).1 = (1, 0, 0, 0) ∧
    ((Quaternion.update (fun _ _ => (1, 0, 0, 0)) (1, 0, 0, 0)
      ⟨(1, 2, 3), (0, 0, 0)⟩).2).isSome = true := by
  have h0 : normSq ((0 : ℚ), (0 : ℚ), (0 : ℚ)) = 0 := by simp [normSq]
  have hc := c7_zero_vector_skips_update (fun _ _ => (1, 0, 0, 0)) (1, 0, 0, 0)
    ⟨(1, 2, 3), (0, 0, 0)⟩ (Or.inl h0)
  exact ⟨h0, hc.1, hc.2⟩

/-- C8: for every quaternion, the pitch returned by to_euler_zyx lies in the
closed interval from -pi/2 to pi/2, and the asin argument is clipped into
the closed interval from -1 to 1 before asin. -/
theorem c8_pitch_in_range (w x y z : ℝ) :
    (-1 ≤ clip (2 * (w * y - z * x)) (-1) 1 ∧ clip (2 * (w * y - z * x)) (-1) 1 ≤ 1) ∧
    (-(Real.pi / 2) ≤ (to_euler_zyx w x y z).2.1 ∧
      (to_euler_zyx w x y z).2.1 ≤ Real.pi / 2) := by
  refine ⟨⟨?_, ?_⟩, ?_, ?_⟩
  · exact le_min (le_max_right _ _) (by norm_num)
  · exact min_le_right _ _
  · simpa [to_euler_zyx] using Real.neg_pi_div_two_le_arcsin (clip (2 * (w * y - z * x)) (-1) 1)
  · simpa [to_euler_zyx] using Real.arcsin_le_pi_div_two (clip (2 * (w * y - z * x)) (-1) 1)

/-- C9: under the spec-modelled factored-quaternion fusion (a product of
elementary rotations with unit half-angle cosine/sine pairs), an update with
both sensor norms nonzero stores a quaternion of squared norm exactly one,
and the unit-norm invariant of the stored quaternion is preserved by every
update, degenerate measurements included. -/
theorem c9_update_unit_norm (ca sa ce se cr sr : ℚ)
    (h1 : ca ^ 2 + sa ^ 2 = 1) (h2 : ce ^ 2 + se ^ 2 = 1) (h3 : cr ^ 2 + sr ^ 2 = 1) :
    (∀ (q : Quat4) (m : Measurement), normSq m.acc ≠ 0 → normSq m.mag ≠ 0 →
      qnormSq (Quaternion.update (fun _ _ => fqaFactored ca sa ce se cr sr) q m).1 = 1) ∧
    (∀ (q : Quat4) (m : Measurement), qnormSq q = 1 →
      qnormSq (Quaternion.update (fun _ _ => fqaFactored ca sa ce se cr sr) q m).1 = 1) := by
  have hunit : qnormSq (fqaFactored ca sa ce se cr sr) = 1 :=
    qnormSq_fqaFactored ca sa ce se cr sr h1 h2 h3
  constructor
  · intro q m hacc hmag
    have ha : 0 < normSq m.acc := lt_of_le_of_ne (normSq_nonneg _) (Ne.symm hacc)
    have hm : 0 < normSq m.mag := lt_of_le_of_ne (normSq_nonneg _) (Ne.symm hmag)
    simp [Quaternion.update, ha, hm, hunit]
  · intro q m hq
    by_cases ha : 0 < normSq m.acc
    · by_cases hm : 0 < normSq m.mag
      · simp [Quaternion.update, ha, hm, hunit]
      · simp [Quaternion.update, ha, hm, hq]
    · simp [Quaternion.update, ha, hq]

/-- Witness for C9 at the identity half-angle parameters and a concrete
nondegenerate measurement. -/
theorem c9_update_unit_norm_witness :
    (1 : ℚ) ^ 2 + (0 : ℚ) ^ 2 = 1 ∧
    normSq ((0 : ℚ), (0 : ℚ), (-1 : ℚ)) ≠ 0 ∧
    qnormSq (Quaternion.update (fun _ _ => fqaFactored 1 0 1 0 1 0) (1, 0, 0, 0)
      ⟨(1, 0, 0), (0, 0, -1)⟩).1 = 1 := by
  have hp : (1 : ℚ) ^ 2 + (0 : ℚ) ^ 2 = 1 := by simp
  have hacc : normSq ((0 : ℚ), (0 : ℚ), (-1 : ℚ)) ≠ 0 := by simp [normSq]
  have hmag : normSq ((1 : ℚ), (0 : ℚ), (0 : ℚ)) ≠ 0 := by simp [normSq]
  exact ⟨hp, hacc,
    (c9_update_unit_norm 1 0 1 0 1 0 hp hp hp).1 (1, 0, 0, 0)
      ⟨(1, 0, 0), (0, 0, -1)⟩ hacc hmag⟩

/-- C10 counterexample: the claim, read as stating that every line containing
a Calibration-grammar match returns the decoded Calibration, fails when the
surrounding text itself contains a Measurement-grammar match: this line is a
full Calibration frame preceded by a Measurement frame, yet parse_line
returns the Measurement, because meas_pattern is searched first. -/
theorem c10_counterexample :
    measLineChars ⟨false, ['1'], none⟩ ⟨false, ['2'], none⟩ ⟨false, ['3'], none⟩
        ⟨false, ['4'], none⟩ ⟨false, ['5'], none⟩ ⟨false, ['6'], none⟩ ++
      (' ' :: calLineChars ⟨false, ['7']⟩ ⟨false, ['8']⟩ ⟨false, ['9']⟩
        ⟨false, ['1', '0']⟩ ⟨false, ['1', '1']⟩ ⟨false, ['1', '2']⟩ ['1', '3']) =
      (measLineChars ⟨false, ['1'], none⟩ ⟨false, ['2'], none⟩ ⟨false, ['3'], none⟩
          ⟨false, ['4'], none⟩ ⟨false, ['5'], none⟩ ⟨false, ['6'], none⟩ ++ [' ']) ++
        (calLineChars ⟨false, ['7']⟩ ⟨false, ['8']⟩ ⟨false, ['9']⟩
          ⟨false, ['1', '0']⟩ ⟨false, ['1', '1']⟩ ⟨false, ['1', '2']⟩ ['1', '3'] ++ []) ∧
    parse_line (String.mk (measLineChars ⟨false, ['1'], none⟩ ⟨false, ['2'], none⟩
        ⟨false, ['3'], none⟩ ⟨false, ['4'], none⟩ ⟨false, ['5'], none⟩ ⟨false, ['6'], none⟩ ++
      (' ' :: calLineChars ⟨false, ['7']⟩ ⟨false, ['8']⟩ ⟨false, ['9']⟩
        ⟨false, ['1', '0']⟩ ⟨false, ['1', '1']⟩ ⟨false, ['1', '2']⟩ ['1', '3']))) =
      Except.ok (ParseResult.meas ⟨((⟨false, ['1'], none⟩ : NumTok).val,
        (⟨false, ['2'], none⟩ : NumTok).val, (⟨false, ['3'], none⟩ : NumTok).val),
        ((⟨false, ['4'], none⟩ : NumTok).val, (⟨false, ['5'], none⟩ : NumTok).val,
        (⟨false, ['6'], none⟩ : NumTok).val)⟩) := by
  constructor
  · simp [List.append_assoc]
  · rfl

/-- C10 (amended): parse_line searches each grammar as an unanchored
substring: a line containing a full Measurement frame anywhere returns a
decoded Measurement; a line containing a full Calibration frame anywhere is
never treated as Unrecognized, and returns a decoded Calibration whenever the
Measurement pattern matches nowhere in the line (meas_pattern is searched
first). -/
theorem c10_unanchored_search :
    (∀ (pre post : List Char) (t1 t2 t3 t4 t5 t6 : NumTok),
      t1.goodB = true → t2.goodB = true → t3.goodB = true → t4.goodB = true →
      t5.goodB = true → t6.goodB = true →
      ∃ m, parse_line (String.mk (pre ++ (measLineChars t1 t2 t3 t4 t5 t6 ++ post))) =
        Except.ok (ParseResult.meas m)) ∧
    (∀ (pre post : List Char) (u1 u2 u3 u4 u5 u6 : IntTok) (u7 : List Char),
      u1.goodB = true → u2.goodB = true → u3.goodB = true → u4.goodB = true →
      u5.goodB = true → u6.goodB = true → goodDigitsB u7 = true →
      (∃ r, parse_line (String.mk (pre ++ (calLineChars u1 u2 u3 u4 u5 u6 u7 ++ post))) =
          Except.ok r ∧ r ≠ ParseResult.noMatch) ∧
      (searchMeas (pre ++ (calLineChars u1 u2 u3 u4 u5 u6 u7 ++ post)) = none →
        ∃ c, parse_line (String.mk (pre ++ (calLineChars u1 u2 u3 u4 u5 u6 u7 ++ post))) =
          Except.ok (ParseResult.cal c))) := by
  constructor
  · intro pre post t1 t2 t3 t4 t5 t6 h1 h2 h3 h4 h5 h6
    have hms := measMatchAt_line_post t1 t2 t3 t4 t5 t6 post h1 h2 h3 h4 h5 h6
    obtain ⟨g, hg⟩ := Option.isSome_iff_exists.mp (searchMeas_app_isSome pre _ hms)
    obtain ⟨u, hu⟩ := searchMeas_shape _ _ hg
    obtain ⟨m, hd⟩ := measDecode_ok_of_matchAt u g hu
    exact ⟨m, by simp [parse_line, hg, hd]⟩
  · intro pre post u1 u2 u3 u4 u5 u6 u7 h1 h2 h3 h4 h5 h6 h7
    have hcal : ∀ hsm : searchMeas (pre ++ (calLineChars u1 u2 u3 u4 u5 u6 u7 ++ post)) = none,
        ∃ c, parse_line (String.mk (pre ++ (calLineChars u1 u2 u3 u4 u5 u6 u7 ++ post))) =
          Except.ok (ParseResult.cal c) := by
      intro hsm
      have hcs := calMatchAt_line_post u1 u2 u3 u4 u5 u6 u7 post h1 h2 h3 h4 h5 h6 h7
      obtain ⟨g, hg⟩ := Option.isSome_iff_exists.mp (searchCal_app_isSome pre _ hcs)
      obtain ⟨u, hu⟩ := searchCal_shape _ _ hg
      obtain ⟨c, hd⟩ := calDecode_ok_of_matchAt u g hu
      exact ⟨c, by simp [parse_line, calStep, hsm, hg, hd]⟩
    refine ⟨?_, hcal⟩
    cases hsm : searchMeas (pre ++ (calLineChars u1 u2 u3 u4 u5 u6 u7 ++ post)) with
    | none =>
      obtain ⟨c, hc⟩ := hcal hsm
      exact ⟨ParseResult.cal c, hc, by simp⟩
    | some g =>
      obtain ⟨u, hu⟩ := searchMeas_shape _ _ hsm
      obtain ⟨m, hd⟩ := measDecode_ok_of_matchAt u g hu
      exact ⟨ParseResult.meas m, by simp [parse_line, hsm, hd], by simp⟩

/-- Witness for C10 with one character of noise around each kind of frame. -/
theorem c10_unanchored_search_witness :
    (∃ m, parse_line (String.mk (['x'] ++ (measLineChars ⟨false, ['1'], none⟩
        ⟨false, ['2'], none⟩ ⟨false, ['3'], none⟩ ⟨false, ['4'], none⟩
        ⟨false, ['5'], none⟩ ⟨false, ['6'], none⟩ ++ ['y']))) =
      Except.ok (ParseResult.meas m)) ∧
    (∃ c, parse_line (String.mk (['x'] ++ (calLineChars ⟨false, ['7']⟩ ⟨false, ['8']⟩
        ⟨false, ['9']⟩ ⟨false, ['1', '0']⟩ ⟨false, ['1', '1']⟩ ⟨false, ['1', '2']⟩
        ['1', '3'] ++ ['y']))) = Except.ok (ParseResult.cal c)) :=
  ⟨c10_unanchored_search.1 ['x'] ['y'] _ _ _ _ _ _ (by decide) (by decide) (by decide)
      (by decide) (by decide) (by decide),
    (c10_unanchored_search.2 ['x'] ['y'] _ _ _ _ _ _ _ (by decide) (by decide) (by decide)
      (by decide) (by decide) (by decide) (by decide)).2 (by rfl)⟩

end SphereMapping
